import Mathlib

/-!
# Verification of the httpc reliable-datagram transport (pkg/libhttpserver/server.go)

Shallow embedding of the packet codec, the response emitter and the per-peer
receive state machine of `server.go`.  Go strings are byte sequences, so they
are modelled as `List Nat` (each entry a byte value `< 256`); Go's `uint32`
arithmetic is modelled as `Nat` with explicit `% 2^32` where the source can
wrap; Go slice indexing that can panic is modelled by `Option` (or an explicit
completion flag): a `none`/`false` result marks a runtime panic of the source,
which aborts the goroutine (and, Go panics being process-fatal when unhandled,
the process).
-/

namespace Httpc

set_option maxRecDepth 100000

/-- A decoded packet, mirroring `type UDPPacket struct` of server.go: every
field holds raw bytes exactly as in the Go struct (`pType` 1 byte, `seqNo`
4 bytes, `peerAddr` 4 bytes, `peerPort` 2 bytes, `payload` the rest). -/
structure UDPPacket where
  pType : List Nat
  seqNo : List Nat
  peerAddr : List Nat
  peerPort : List Nat
  payload : List Nat
deriving DecidableEq

/-- `binary.BigEndian.Uint32` of server.go: big-endian fold of the byte list
(the source always applies it to 4-byte fields). -/
def be32 (l : List Nat) : Nat := l.foldl (fun a b => a * 256 + b) 0

/-- `binary.BigEndian.Uint16` of server.go (applied to 2-byte fields). -/
def be16 (l : List Nat) : Nat := l.foldl (fun a b => a * 256 + b) 0

/-- `binary.BigEndian.PutUint32`: the four big-endian bytes of `v`
(Go truncates `v` to 32 bits; taking `/` and `% 256` of a `Nat` agrees with
that truncation byte for byte). -/
def putU32 (v : Nat) : List Nat :=
  [v / 2 ^ 24 % 256, v / 2 ^ 16 % 256, v / 2 ^ 8 % 256, v % 256]

/-- `binary.BigEndian.PutUint16`. -/
def putU16 (v : Nat) : List Nat := [v / 2 ^ 8 % 256, v % 256]

/-- Go `byte(x)` conversion of an `int`: the low byte, i.e. `x` modulo 256
(Euclidean `%` on `Int` matches Go's two's-complement truncation). -/
def byteOfInt (x : Int) : Nat := (x % 256).toNat

/-- One decimal digit byte test, `'0' ≤ b ≤ '9'` (48..57). -/
def isDigitByte (b : Nat) : Bool := 48 ≤ b && b ≤ 57

/-- Accumulating decimal parse of a byte list; `none` as soon as a non-digit
byte appears.  Helper for the embedding of `strconv.Atoi`. -/
def digitsToNat : List Nat → Nat → Option Nat
  | [], acc => some acc
  | b :: bs, acc =>
    if isDigitByte b then digitsToNat bs (acc * 10 + (b - 48)) else none

/-- `strconv.Atoi` of server.go: optional sign, then one or more decimal
digits; `none` models the non-nil error return (in which case Go's result
value is 0 — call sites use `(goAtoi s).getD 0` for that pattern). -/
def goAtoi (s : List Nat) : Option Int :=
  match s with
  | [] => none
  | b :: bs =>
    if b = 43 then
      match bs with
      | [] => none
      | _ => (digitsToNat bs 0).map Int.ofNat
    else if b = 45 then
      match bs with
      | [] => none
      | _ => (digitsToNat bs 0).map (fun n => -(n : Int))
    else (digitsToNat s 0).map Int.ofNat

/-- Decimal rendering of a natural number, fuelled so that it is structural
(the fuel is always sufficient at call sites: `itoa` passes `n + 1`).
Embeds the `%d` formatting used by `fmt.Sprintf` in server.go. -/
def itoaAux : Nat → Nat → List Nat
  | 0, _ => []
  | fuel + 1, n =>
    if n < 10 then [48 + n] else itoaAux fuel (n / 10) ++ [48 + n % 10]

/-- Decimal rendering of a natural number (`fmt.Sprintf "%d"`). -/
def itoa (n : Nat) : List Nat := itoaAux (n + 1) n

/-- `strings.Split` on a single-byte separator, as used by `MakePacket` with
separator `"."` (byte 46). -/
def splitOnByte (sep : Nat) : List Nat → List (List Nat)
  | [] => [[]]
  | b :: bs =>
    if b = sep then [] :: splitOnByte sep bs
    else
      match splitOnByte sep bs with
      | [] => [[b]]
      | g :: gs => (b :: g) :: gs

/-- The canonical dotted-quad rendering `"%d.%d.%d.%d"` (46 = `'.'`) used by
`getAddressFromBytes` in server.go. -/
def quadStr (a b c d : Nat) : List Nat :=
  itoa a ++ 46 :: (itoa b ++ 46 :: (itoa c ++ 46 :: itoa d))

/-- `parsePacket` of server.go (lines 52–66).  The Go function slices
`data[0]`, `data[1:5]`, `data[5:9]`, `data[9:11]`, `data[11:]` with no bounds
check, so it panics exactly when the input is shorter than 11 bytes; the
panic is modelled by `none`. -/
def parsePacket (data : List Nat) : Option UDPPacket :=
  if 11 ≤ data.length then
    some { pType := data.take 1
           seqNo := (data.drop 1).take 4
           peerAddr := (data.drop 5).take 4
           peerPort := (data.drop 9).take 2
           payload := data.drop 11 }
  else none

/-- `getBytesFromPacket` of server.go: concatenation of the five fields. -/
def getBytesFromPacket (packet : UDPPacket) : List Nat :=
  packet.pType ++ packet.seqNo ++ packet.peerAddr ++ packet.peerPort ++ packet.payload

/-- `MakePacket` of server.go (lines 76–110).  The address string is split on
`"."` and each section written through `strconv.Atoi` (errors discarded, so a
bad section contributes `byte(0)`); Go writes section `i` into a 4-byte array
(a fifth section would panic — unreachable: every call site passes a canonical
dotted quad), sections beyond the split are left zero. -/
def MakePacket (pType : Nat) (seqNo : Nat) (addr : List Nat) (port : Nat)
    (payload : List Nat) : UDPPacket :=
  let sections := splitOnByte 46 addr
  let peerAddrBytes :=
    ((sections.map fun sec => byteOfInt ((goAtoi sec).getD 0)) ++ [0, 0, 0, 0]).take 4
  { pType := [pType % 256]
    seqNo := putU32 seqNo
    peerAddr := peerAddrBytes
    peerPort := putU16 port
    payload := payload }

/-- `getAddressFromBytes` of server.go: `fmt.Sprintf("%d.%d.%d.%d", ...)` of
the four peer-address bytes. -/
def getAddressFromBytes (packet : UDPPacket) : List Nat :=
  quadStr (packet.peerAddr.getD 0 0) (packet.peerAddr.getD 1 0)
    (packet.peerAddr.getD 2 0) (packet.peerAddr.getD 3 0)

/-- `getPortFromBytes` of server.go. -/
def getPortFromBytes (packet : UDPPacket) : Nat := be16 packet.peerPort

/-- `inAcks` of server.go: linear membership scan. -/
def inAcks (seqNo : Nat) (acks : List Nat) : Bool := acks.any fun ackSeq => ackSeq = seqNo

/-- `inNaks` of server.go. -/
def inNaks (seqNo : Nat) (naks : List Nat) : Bool := naks.any fun nakSeq => nakSeq = seqNo

/-- `remove` of server.go (lines 424–431): delete the first packet whose
decoded seqNo matches, keep the list otherwise. -/
def remove : List UDPPacket → UDPPacket → List UDPPacket
  | [], _ => []
  | curr :: rest, removePack =>
    if be32 curr.seqNo = be32 removePack.seqNo then rest
    else curr :: remove rest removePack

/-! ## Basic lemmas about the codec helpers -/

theorem digitsToNat_append (xs ys : List Nat) (acc : Nat) :
    digitsToNat (xs ++ ys) acc = (digitsToNat xs acc).bind fun m => digitsToNat ys m := by
  induction xs generalizing acc with
  | nil => rfl
  | cons b bs ih =>
    simp only [List.cons_append, digitsToNat]
    split
    · exact ih _
    · rfl

theorem itoaAux_all_digits : ∀ fuel n b, b ∈ itoaAux fuel n → 48 ≤ b ∧ b ≤ 57 := by
  intro fuel
  induction fuel with
  | zero => intro n b hb; simp [itoaAux] at hb
  | succ fuel ih =>
    intro n b hb
    by_cases hn : n < 10
    · simp [itoaAux, hn] at hb
      omega
    · simp only [itoaAux, if_neg hn, List.mem_append, List.mem_singleton] at hb
      rcases hb with hb | hb
      · exact ih _ _ hb
      · subst hb; constructor <;> omega

theorem itoaAux_ne_nil (fuel n : Nat) (h : fuel ≠ 0) : itoaAux fuel n ≠ [] := by
  cases fuel with
  | zero => exact absurd rfl h
  | succ fuel =>
    by_cases hn : n < 10 <;> simp [itoaAux, hn]

theorem itoaAux_spec : ∀ fuel n acc, n < fuel →
    digitsToNat (itoaAux fuel n) acc = some (acc * 10 ^ (itoaAux fuel n).length + n) := by
  intro fuel
  induction fuel with
  | zero => intro n acc h; omega
  | succ fuel ih =>
    intro n acc h
    by_cases hn : n < 10
    · have hd : isDigitByte (48 + n) = true := by
        unfold isDigitByte
        simp only [Bool.and_eq_true, decide_eq_true_eq]
        omega
      simp [itoaAux, hn, digitsToNat, hd]
    · have hdiv : n / 10 < fuel := by omega
      simp only [itoaAux, if_neg hn, digitsToNat_append, ih (n / 10) acc hdiv, Option.bind_some]
      have hd : isDigitByte (48 + n % 10) = true := by
        unfold isDigitByte
        simp only [Bool.and_eq_true, decide_eq_true_eq]
        omega
      simp [digitsToNat, hd, List.length_append, pow_succ]
      have := Nat.div_add_mod n 10
      ring_nf
      omega

theorem goAtoi_itoa (n : Nat) : goAtoi (itoa n) = some (n : Int) := by
  have hne : itoa n ≠ [] := itoaAux_ne_nil _ _ (Nat.succ_ne_zero n)
  have hspec := itoaAux_spec (n + 1) n 0 (Nat.lt_succ_self n)
  rcases hl : itoa n with _ | ⟨b, bs⟩
  · exact absurd hl hne
  · have hb : 48 ≤ b ∧ b ≤ 57 := by
      apply itoaAux_all_digits (n + 1) n
      show b ∈ itoa n
      rw [hl]; exact List.mem_cons_self b bs
    have hb43 : ¬ b = 43 := by omega
    have hb45 : ¬ b = 45 := by omega
    unfold itoa at hl
    rw [hl] at hspec
    simp only [goAtoi, if_neg hb43, if_neg hb45, hspec]
    simp

theorem dot_not_mem_itoa (n : Nat) : 46 ∉ itoa n := by
  intro h
  have := itoaAux_all_digits (n + 1) n 46 h
  omega

theorem splitOnByte_no_sep (sep : Nat) : ∀ l, sep ∉ l → splitOnByte sep l = [l] := by
  intro l
  induction l with
  | nil => intro _; rfl
  | cons b bs ih =>
    intro h
    have hb : ¬ b = sep := fun hb => h (hb ▸ List.mem_cons_self b bs)
    have hbs : sep ∉ bs := fun hm => h (List.mem_cons_of_mem b hm)
    simp only [splitOnByte, if_neg hb, ih hbs]

theorem splitOnByte_sep_append (sep : Nat) :
    ∀ xs ys, sep ∉ xs → splitOnByte sep (xs ++ sep :: ys) = xs :: splitOnByte sep ys := by
  intro xs
  induction xs with
  | nil => intro ys _; simp [splitOnByte]
  | cons b bs ih =>
    intro ys h
    have hb : ¬ b = sep := fun hb => h (hb ▸ List.mem_cons_self b bs)
    have hbs : sep ∉ bs := fun hm => h (List.mem_cons_of_mem b hm)
    simp only [List.cons_append, splitOnByte, if_neg hb, List.append_eq, ih ys hbs]

theorem splitOnByte_quadStr (a b c d : Nat) :
    splitOnByte 46 (quadStr a b c d) = [itoa a, itoa b, itoa c, itoa d] := by
  unfold quadStr
  rw [splitOnByte_sep_append 46 _ _ (dot_not_mem_itoa a),
      splitOnByte_sep_append 46 _ _ (dot_not_mem_itoa b),
      splitOnByte_sep_append 46 _ _ (dot_not_mem_itoa c),
      splitOnByte_no_sep 46 _ (dot_not_mem_itoa d)]

theorem byteOfInt_coe (n : Nat) (h : n < 256) : byteOfInt (n : Int) = n := by
  unfold byteOfInt
  rw [Int.emod_eq_of_lt (by exact_mod_cast Nat.zero_le n) (by exact_mod_cast h)]
  simp

theorem be32_putU32 (v : Nat) (h : v < 2 ^ 32) : be32 (putU32 v) = v := by
  simp [be32, putU32, List.foldl]
  omega

theorem be16_putU16 (v : Nat) (h : v < 2 ^ 16) : be16 (putU16 v) = v := by
  simp [be16, putU16, List.foldl]
  omega

theorem MakePacket_quadStr (t s p : Nat) (pl : List Nat) (n0 n1 n2 n3 : Nat)
    (h0 : n0 < 256) (h1 : n1 < 256) (h2 : n2 < 256) (h3 : n3 < 256) :
    MakePacket t s (quadStr n0 n1 n2 n3) p pl =
      { pType := [t % 256], seqNo := putU32 s, peerAddr := [n0, n1, n2, n3],
        peerPort := putU16 p, payload := pl } := by
  unfold MakePacket
  rw [splitOnByte_quadStr]
  simp [goAtoi_itoa, byteOfInt_coe n0 h0, byteOfInt_coe n1 h1, byteOfInt_coe n2 h2,
    byteOfInt_coe n3 h3]

theorem getBytes_parsePacket {b : List Nat} {q : UDPPacket} (h : parsePacket b = some q) :
    getBytesFromPacket q = b := by
  unfold parsePacket at h
  split at h
  · cases h
    unfold getBytesFromPacket
    simp only [List.append_assoc]
    rw [show b.drop 11 = (b.drop 9).drop 2 by rw [List.drop_drop]]
    rw [List.take_append_drop]
    rw [show b.drop 9 = (b.drop 5).drop 4 by rw [List.drop_drop]]
    rw [List.take_append_drop]
    rw [show b.drop 5 = (b.drop 1).drop 4 by rw [List.drop_drop]]
    rw [List.take_append_drop, List.take_append_drop]
  · cases h

theorem parsePacket_length {b : List Nat} (h : 11 ≤ b.length) :
    parsePacket b = some (UDPPacket.mk (b.take 1) ((b.drop 1).take 4) ((b.drop 5).take 4)
      ((b.drop 9).take 2) (b.drop 11)) := by
  unfold parsePacket
  rw [if_pos h]

/-! ## Claim C7: codec round trip -/

/-- C7: for every one-byte packet type `t`, 32-bit seqNo `s`, 16-bit port `p`,
valid (canonical) dotted-quad address and payload of length at most 1013,
decoding the encoded bytes yields a packet whose type, seqNo, peer address,
peer port and payload equal the inputs. -/
theorem c7_codec_roundtrip (t s p : Nat) (payload : List Nat) (n0 n1 n2 n3 : Nat)
    (ht : t < 256) (hs : s < 2 ^ 32) (hp : p < 2 ^ 16)
    (h0 : n0 < 256) (h1 : n1 < 256) (h2 : n2 < 256) (h3 : n3 < 256)
    (hpl : payload.length ≤ 1013) :
    ∃ q, parsePacket (getBytesFromPacket (MakePacket t s (quadStr n0 n1 n2 n3) p payload)) = some q
      ∧ q.pType = [t] ∧ be32 q.seqNo = s ∧ getAddressFromBytes q = quadStr n0 n1 n2 n3
      ∧ be16 q.peerPort = p ∧ q.payload = payload := by
  rw [MakePacket_quadStr t s p payload n0 n1 n2 n3 h0 h1 h2 h3]
  have hbytes : getBytesFromPacket
      (UDPPacket.mk [t % 256] (putU32 s) [n0, n1, n2, n3] (putU16 p) payload) =
      t % 256 :: (s / 2 ^ 24 % 256) :: (s / 2 ^ 16 % 256) :: (s / 2 ^ 8 % 256) :: (s % 256) ::
      n0 :: n1 :: n2 :: n3 :: (p / 2 ^ 8 % 256) :: (p % 256) :: payload := by
    simp [getBytesFromPacket, putU32, putU16]
  rw [hbytes, parsePacket_length (by simp)]
  refine ⟨_, rfl, ?_, ?_, ?_, ?_, ?_⟩
  · simp [Nat.mod_eq_of_lt ht]
  · simp only [List.drop_succ_cons, List.drop_zero, List.take_succ_cons, List.take_zero]
    simp [be32]
    omega
  · simp [getAddressFromBytes]
  · simp only [List.drop_succ_cons, List.drop_zero, List.take_succ_cons, List.take_zero]
    simp [be16]
    omega
  · simp

/-- C7 witness: round trip at a concrete packet. -/
theorem c7_witness :
    ∃ q, parsePacket (getBytesFromPacket (MakePacket 0 5 (quadStr 127 0 0 1) 80 [71, 69, 84]))
        = some q
      ∧ q.pType = [0] ∧ be32 q.seqNo = 5 ∧ getAddressFromBytes q = quadStr 127 0 0 1
      ∧ be16 q.peerPort = 80 ∧ q.payload = [71, 69, 84] :=
  c7_codec_roundtrip 0 5 80 [71, 69, 84] 127 0 0 1 (by decide) (by decide) (by decide)
    (by decide) (by decide) (by decide) (by decide) (by decide)

/-! ## Claim C1: short datagrams -/

/-- The decode step of the server loop (server.go lines 258–271): the loop
applies `parsePacket` to every received datagram with no recovery around it,
so the step survives exactly when `parsePacket` does not panic.  A Go panic
in this goroutine (there is no `recover` anywhere in the program) aborts the
whole process. -/
def serverDecodeSurvives (datagram : List Nat) : Bool :=
  (parsePacket datagram).isSome

/-- C1 counterexample: a concrete 10-byte datagram makes the server loop's
decode step panic (out-of-range slice in `parsePacket`), which is fatal to
the process — contradicting the claim that short inputs fail with a
MalformedPacket error that is dropped and logged while the server continues. -/
theorem c1_short_input_cex : serverDecodeSurvives (List.replicate 10 0) = false := by
  decide

/-- C1 amended: the decoder is total exactly on inputs of length at least 11;
a shorter datagram delivered to the server loop's decode step is an unhandled
runtime panic (there is no MalformedPacket error value, no drop-and-log path,
and the panic is fatal to the process). -/
theorem c1_amended_decode_total_iff (d : List Nat) :
    serverDecodeSurvives d = true ↔ 11 ≤ d.length := by
  unfold serverDecodeSurvives parsePacket
  split <;> simp_all

/-- C1 amended witness: an 11-byte datagram decodes successfully. -/
theorem c1_amended_witness : serverDecodeSurvives (List.replicate 11 0) = true :=
  (c1_amended_decode_total_iff (List.replicate 11 0)).mpr (by simp)

/-! ## Response emitter: `getResponsePacketBytes` (server.go lines 439–467) -/

/-- The per-chunk loop of `getResponsePacketBytes` (server.go lines 452–459):
`for i := 1; i < numPackets; i++` builds one slot per iteration from the next
1012 payload bytes (always in bounds at call sites, since the loop covers at
most `numPackets - 1` full chunks), appends the trailing total-count byte
`byte(numPackets)`, and advances `counter` by 1012 and `seqNo` by one.  The
first argument of the recursion is the number of remaining iterations; the
function returns the slots written plus the final `counter` and `seqNo`. -/
def chunkLoop (hostAddr : List Nat) (port : Nat) (payloadBytes : List Nat) (numPackets : Nat) :
    Nat → Nat → Nat → List (List Nat) × Nat × Nat
  | 0, counter, seqNo => ([], counter, seqNo)
  | k + 1, counter, seqNo =>
    let chunk := (payloadBytes.drop counter).take 1012
    let slot := getBytesFromPacket (MakePacket 0 seqNo hostAddr port chunk) ++ [numPackets % 256]
    let rest := chunkLoop hostAddr port payloadBytes numPackets k (counter + 1012) (seqNo + 1)
    (slot :: rest.1, rest.2)

/-- `getResponsePacketBytes` of server.go (lines 439–467).  `numPackets` is
`int(math.Ceil(len/1012))` (exact for these magnitudes, i.e. ceiling
division); Go allocates `numPackets` nil slots, fills the first
`numPackets - 1` in the loop, and fills the final slot only when
`len(payload) % 1012 > 0` — otherwise that slot stays nil (modelled by `[]`).
When `numPackets = 0` the allocation is empty and nothing is filled. -/
def getResponsePacketBytes (seqNo : Nat) (hostAddr : List Nat) (port : Nat)
    (payload : List Nat) : List (List Nat) × Nat :=
  let numPackets := (payload.length + 1011) / 1012
  if numPackets = 0 then ([], 0)
  else if numPackets = 1 then
    ([getBytesFromPacket (MakePacket 0 seqNo hostAddr port payload) ++ [1]], 1)
  else
    let loop := chunkLoop hostAddr port payload numPackets (numPackets - 1) 0 seqNo
    let residue := payload.length % 1012
    let lastSlot :=
      if 0 < residue then
        getBytesFromPacket (MakePacket 0 loop.2.2 hostAddr port (payload.drop loop.2.1))
          ++ [numPackets % 256]
      else []
    (loop.1 ++ [lastSlot], numPackets)

theorem chunkLoop_spec (hostAddr : List Nat) (port : Nat) (pb : List Nat) (np : Nat) :
    ∀ k counter sq,
      (chunkLoop hostAddr port pb np k counter sq).1.length = k ∧
      (chunkLoop hostAddr port pb np k counter sq).2.1 = counter + 1012 * k ∧
      (chunkLoop hostAddr port pb np k counter sq).2.2 = sq + k ∧
      ∀ i, i < k → (chunkLoop hostAddr port pb np k counter sq).1.get? i =
        some (getBytesFromPacket (MakePacket 0 (sq + i) hostAddr port
          ((pb.drop (counter + 1012 * i)).take 1012)) ++ [np % 256]) := by
  intro k
  induction k with
  | zero =>
    intro counter sq
    refine ⟨rfl, by simp [chunkLoop], by simp [chunkLoop], ?_⟩
    intro i hi
    omega
  | succ k ih =>
    intro counter sq
    obtain ⟨ihlen, ihc, ihs, ihget⟩ := ih (counter + 1012) (sq + 1)
    refine ⟨?_, ?_, ?_, ?_⟩
    · simp [chunkLoop, ihlen]
    · show (chunkLoop hostAddr port pb np k (counter + 1012) (sq + 1)).2.1 = _
      rw [ihc]; ring
    · show (chunkLoop hostAddr port pb np k (counter + 1012) (sq + 1)).2.2 = _
      rw [ihs]; ring
    · intro i hi
      cases i with
      | zero => simp [chunkLoop]
      | succ j =>
        have hj : j < k := by omega
        show (chunkLoop hostAddr port pb np k (counter + 1012) (sq + 1)).1.get? j = _
        have e1 : sq + 1 + j = sq + (j + 1) := by omega
        have e2 : counter + 1012 + 1012 * j = counter + 1012 * (j + 1) := by omega
        rw [ihget j hj, e1, e2]

/-! ## Claim C3: responses of length exactly 1012·N -/

/-- Characterization of `getResponsePacketBytes` on payloads whose length is
an exact multiple `1012·N` with `N ≥ 2`: the loop fills the first `N − 1`
slots and the residue branch is skipped, leaving the final slot nil. -/
theorem getResponsePacketBytes_exact_multiple (sq port N : Nat) (hostAddr payload : List Nat)
    (hN : 2 ≤ N) (hlen : payload.length = 1012 * N) :
    (getResponsePacketBytes sq hostAddr port payload).2 = N
      ∧ (getResponsePacketBytes sq hostAddr port payload).1.length = N
      ∧ (getResponsePacketBytes sq hostAddr port payload).1.getLast? = some []
      ∧ ∀ i, i < N - 1 → (getResponsePacketBytes sq hostAddr port payload).1.get? i =
          some (getBytesFromPacket (MakePacket 0 (sq + i) hostAddr port
            ((payload.drop (1012 * i)).take 1012)) ++ [N % 256]) := by
  obtain ⟨hloopl, hloopc, hloops, hloopget⟩ :=
    chunkLoop_spec hostAddr port payload N (N - 1) 0 sq
  have hnum : (payload.length + 1011) / 1012 = N := by rw [hlen]; omega
  have hres : payload.length % 1012 = 0 := by rw [hlen]; omega
  have hne0 : ¬ N = 0 := by omega
  have hne1 : ¬ N = 1 := by omega
  have hmain : getResponsePacketBytes sq hostAddr port payload =
      ((chunkLoop hostAddr port payload N (N - 1) 0 sq).1 ++ [[]], N) := by
    simp only [getResponsePacketBytes, hnum, if_neg hne0, if_neg hne1, hres,
      if_neg (show ¬ (0 : Nat) < 0 by omega)]
  rw [hmain]
  refine ⟨rfl, ?_, ?_, ?_⟩
  · simp only [List.length_append, List.length_cons, List.length_nil, hloopl]
    omega
  · exact List.getLast?_concat _
  · intro i hi
    rw [List.get?_append (by rw [hloopl]; omega), hloopget i (by omega)]
    simp

/-- C3 counterexample: for a response of exactly `1012·2 = 2024` bytes the
emitter allocates 2 slots but the second slot is left nil (the loop stops at
`numPackets - 1` and the residue branch is skipped because
`2024 % 1012 = 0`), so the claimed second DATA packet — 1012 payload bytes
plus the trailing count byte — is never constructed or transmitted. -/
theorem c3_exact_multiple_cex :
    (getResponsePacketBytes 1 (quadStr 127 0 0 1) 80 (List.replicate 2024 65)).1.getLast?
        = some []
      ∧ (getResponsePacketBytes 1 (quadStr 127 0 0 1) 80 (List.replicate 2024 65)).2 = 2 := by
  have h := getResponsePacketBytes_exact_multiple 1 80 2 (quadStr 127 0 0 1)
    (List.replicate 2024 65) (by omega) (by rw [List.length_replicate])
  exact ⟨h.2.2.1, h.1⟩

/-- C3 amended: for a response payload of length exactly `1012·N` with
`N ≥ 2`, the emitter reports `N` packets and produces `N` slots, but only the
first `N − 1` are DATA packets (each carrying 1012 payload bytes plus the
trailing total-count byte `N mod 256`); the `N`-th slot remains empty, so the
`N`-th packet is never constructed (parsing the nil slot then panics in
`writeResponseToClient`).  The `N = 1` case behaves as the claim states. -/
theorem c3_amended_exact_multiple (sq port N : Nat) (hostAddr payload : List Nat)
    (hN : 2 ≤ N) (hlen : payload.length = 1012 * N) :
    (getResponsePacketBytes sq hostAddr port payload).2 = N
      ∧ (getResponsePacketBytes sq hostAddr port payload).1.length = N
      ∧ (getResponsePacketBytes sq hostAddr port payload).1.getLast? = some []
      ∧ ∀ i, i < N - 1 → (getResponsePacketBytes sq hostAddr port payload).1.get? i =
          some (getBytesFromPacket (MakePacket 0 (sq + i) hostAddr port
            ((payload.drop (1012 * i)).take 1012)) ++ [N % 256]) :=
  getResponsePacketBytes_exact_multiple sq port N hostAddr payload hN hlen

/-- C3 amended witness: the amended statement at `N = 2` with a concrete
2024-byte payload. -/
theorem c3_amended_witness :
    (getResponsePacketBytes 1 (quadStr 10 0 0 7) 80 (List.replicate 2024 66)).2 = 2
      ∧ (getResponsePacketBytes 1 (quadStr 10 0 0 7) 80 (List.replicate 2024 66)).1.length = 2
      ∧ (getResponsePacketBytes 1 (quadStr 10 0 0 7) 80
          (List.replicate 2024 66)).1.getLast? = some [] := by
  have h := c3_amended_exact_multiple 1 80 2 (quadStr 10 0 0 7) (List.replicate 2024 66)
    (by omega) (by rw [List.length_replicate])
  exact ⟨h.1, h.2.1, h.2.2.1⟩

/-! ## The per-session receive state machine (server.go lines 274–368) -/

/-- Observable actions of a session's receive loop: `wire b` is one
`WriteToUDP` of the bytes `b`; `respond req` marks one invocation of
`writeResponseToClient` — and through it of the HTTP bridge — with the
reassembled request `req`. -/
inductive Event where
  | wire : List Nat → Event
  | respond : List Nat → Event
deriving DecidableEq

/-- The session-local state captured by the per-client goroutine closure in
`StartUDPServer` (server.go lines 276–284): `hostAddr`/`hostPort` are the
formatted peer address and port taken from the packet that created the
session (all packets routed to the session carry the same peer header, since
the registry key is derived from it). -/
structure Session where
  expectedSeqNo : Nat
  acks : List Nat
  naks : List Nat
  responseNaksList : List UDPPacket
  httpPayload : List (List Nat)
  totalNumPackets : Nat
  responsePackets : List UDPPacket
  hostAddr : List Nat
  hostPort : Nat
deriving DecidableEq

/-- Initial session state (server.go lines 276–283): `expectedSeqNo = 4`,
`acks` and `naks` are `make([]uint32, 5)` (five zero entries), the reassembly
buffer is `make([]string, 1024)` (1024 empty strings), `totalNumPackets` is
the zero value of `int`. -/
def initSession (pkt : UDPPacket) : Session :=
  { expectedSeqNo := 4
    acks := [0, 0, 0, 0, 0]
    naks := [0, 0, 0, 0, 0]
    responseNaksList := []
    httpPayload := List.replicate 1024 []
    totalNumPackets := 0
    responsePackets := []
    hostAddr := getAddressFromBytes pkt
    hostPort := getPortFromBytes pkt }

/-- The packet-type byte `packet.pType[0]` (every packet handled by the loop
comes from `parsePacket`, whose `pType` field is exactly one byte). -/
def pTypeByte (packet : UDPPacket) : Nat := packet.pType.headD 0

/-- `sendUnreceivedResponsePackets` of server.go (lines 389–398): for each
pending NAK, decode its seqNo and send `responsePackets[int(missingNo)-1]`.
The index is not bounds-checked: it is out of range when the seqNo is 0 or
exceeds the number of stored response packets; the resulting panic is
modelled by a `false` completion flag (events before the panic are kept). -/
def sendUnreceivedResponsePackets : List UDPPacket → List UDPPacket → List Event × Bool
  | [], _ => ([], true)
  | nakPack :: rest, responsePackets =>
    let missingNo := be32 nakPack.seqNo
    if missingNo = 0 then ([], false)
    else
      match responsePackets.get? (missingNo - 1) with
      | none => ([], false)
      | some missingPacket =>
        let r := sendUnreceivedResponsePackets rest responsePackets
        (Event.wire (getBytesFromPacket missingPacket) :: r.1, r.2)

/-- `stringifyRequestPayload` of server.go (lines 469–475): concatenation of
`httpPayload[4 : 4+totalNumPackets]` (callers have already bounds-checked the
same slice). -/
def stringifyRequestPayload (httpPayload : List (List Nat)) (totalNumPackets : Nat) :
    List Nat :=
  ((httpPayload.drop 4).take totalNumPackets).join

/-- `checkNotEmpty` of server.go (lines 477–484): true iff every entry of the
slice is non-empty — vacuously true for an empty slice. -/
def checkNotEmpty (httpPayload : List (List Nat)) : Bool :=
  httpPayload.all fun packet => packet.length != 0

/-- The per-packet transmit loop of `writeResponseToClient` (server.go lines
404–410): each slot is parsed (`parsePacket` panics on a nil slot) and then
written; returns the wire events and, when no parse panicked, the parsed
packets retained in `responsePackets`. -/
def sendLoop : List (List Nat) → List Event × Option (List UDPPacket)
  | [] => ([], some [])
  | packetBytes :: rest =>
    match parsePacket packetBytes with
    | none => ([], none)
    | some pk =>
      let r := sendLoop rest
      (Event.wire packetBytes :: r.1, r.2.map fun pks => pk :: pks)

/-- `writeResponseToClient` (server.go lines 400–412) together with
`getResponsePayload` (lines 433–437): reassemble the request, hand it to the
HTTP bridge (`handleUdpConnection`, an external collaborator modelled by the
function argument `bridge`), chunk the response with
`getResponsePacketBytes` and transmit each packet.  The leading
`Event.respond` marks the invocation of the emitter/bridge. -/
def writeResponseToClient (bridge : List Nat → List Nat) (httpPayload : List (List Nat))
    (totalNumPackets : Nat) (hostAddr : List Nat) (hostPort : Nat) :
    List Event × Option (List UDPPacket) :=
  if 4 + totalNumPackets ≤ httpPayload.length then
    let request := stringifyRequestPayload httpPayload totalNumPackets
    let pb := getResponsePacketBytes 1 hostAddr hostPort (bridge request)
    let sl := sendLoop pb.1
    (Event.respond request :: sl.1, sl.2)
  else ([], none)

/-- The reassembly-completeness check run after each fresh DATA packet
(server.go lines 353–362): `totalNumPackets == 1 && len(httpPayload[4]) > 0`
(short-circuit: the index-4 read is evaluated only under the first conjunct,
and panics only if the buffer is shorter than 5), else
`checkNotEmpty(httpPayload[4 : 4+totalNumPackets])` — the slice panics when
`4 + totalNumPackets` exceeds the buffer length. -/
def completeCheck (bridge : List Nat → List Nat) (s : Session) :
    List Event × Option Session :=
  let respondNow : List Event × Option Session :=
    let w := writeResponseToClient bridge s.httpPayload s.totalNumPackets s.hostAddr s.hostPort
    (w.1, w.2.map fun pks => { s with responsePackets := pks })
  let elseBranch : List Event × Option Session :=
    if 4 + s.totalNumPackets ≤ s.httpPayload.length then
      if checkNotEmpty ((s.httpPayload.drop 4).take s.totalNumPackets) then respondNow
      else ([], some s)
    else ([], none)
  if s.totalNumPackets = 1 then
    match s.httpPayload.get? 4 with
    | none => ([], none)
    | some p4 => if 0 < p4.length then respondNow else elseBranch
  else elseBranch

/-- The DATA branch of the receive loop (server.go lines 303–362).
Duplicates (`inAcks`) are dropped by `continue`.  A fresh seqNo is appended
to `acks` and ACKed; the store `httpPayload[r] = payload` panics when `r` is
outside the 1024-slot buffer (the ACK write has already happened); the ahead
sub-case NAKs every seqNo in `[expectedSeqNo, r)` and sets
`expectedSeqNo = r + 1` in uint32 arithmetic; finally the completeness check
may invoke the response emitter. -/
def dataStep (bridge : List Nat → List Nat) (s : Session) (pkt : UDPPacket) :
    List Event × Option Session :=
  let r := be32 pkt.seqNo
  if inAcks r s.acks then ([], some s)
  else
    let acks' := s.acks ++ [r]
    let ackEv :=
      Event.wire (getBytesFromPacket (MakePacket 1 r s.hostAddr (be16 pkt.peerPort) []))
    if r = s.expectedSeqNo then
      if r < s.httpPayload.length then
        let s' := { s with acks := acks'
                           httpPayload := s.httpPayload.set r pkt.payload
                           expectedSeqNo := (s.expectedSeqNo + 1) % 2 ^ 32 }
        let cc := completeCheck bridge s'
        (ackEv :: cc.1, cc.2)
      else ([ackEv], none)
    else if r < s.expectedSeqNo then
      if r < s.httpPayload.length then
        let s' := { s with acks := acks'
                           httpPayload := s.httpPayload.set r pkt.payload }
        let cc := completeCheck bridge s'
        (ackEv :: cc.1, cc.2)
      else ([ackEv], none)
    else
      if r < s.httpPayload.length then
        let missing := List.range' s.expectedSeqNo (r - s.expectedSeqNo)
        let nakEvs := missing.map fun packetNum =>
          Event.wire (getBytesFromPacket (MakePacket 4 packetNum s.hostAddr (be16 pkt.peerPort) []))
        let s' := { s with acks := acks'
                           naks := s.naks ++ missing
                           httpPayload := s.httpPayload.set r pkt.payload
                           expectedSeqNo := (r + 1) % 2 ^ 32 }
        let cc := completeCheck bridge s'
        (ackEv :: (nakEvs ++ cc.1), cc.2)
      else ([ackEv], none)

/-- `handleHandshakePacket` of server.go (lines 486–513): on SYN, parse the
payload with `strconv.Atoi` (a failed parse logs and leaves the Go result
value 0), send a SYN-ACK with `seqNo+1` (retried until a write succeeds:
one successful write, one event), and return the parsed count; on every
other type return nil (type 1 only logs). -/
def handleHandshakePacket (pkt : UDPPacket) : Option Int × List Event :=
  if pTypeByte pkt = 2 then
    let receivedSeq := be32 pkt.seqNo
    let totalNumPackets : Int := (goAtoi pkt.payload).getD 0
    let synAck := MakePacket 3 (receivedSeq + 1) (getAddressFromBytes pkt) (be16 pkt.peerPort) []
    (some totalNumPackets, [Event.wire (getBytesFromPacket synAck)])
  else (none, [])

/-- One iteration of the per-session receive loop (server.go lines 286–368),
parameterized by the HTTP bridge.  NAK packets extend the pending-NAK list
and trigger retransmission; ACK packets with seqNo 3 are the handshake ACK
(`continue`); other ACKs remove their entry from the pending list and
retransmit what remains; DATA packets run `dataStep`; everything falls
through to `handleHandshakePacket`, which reacts only to SYN — its returned
count is stored into `totalNumPackets` only when strictly positive.  The
returned session is `none` when the iteration panicked (events emitted
before the panic are kept). -/
def step (bridge : List Nat → List Nat) (s : Session) (pkt : UDPPacket) :
    List Event × Option Session :=
  let receivedSeqNo := be32 pkt.seqNo
  if pTypeByte pkt = 4 then
    let rl := s.responseNaksList ++ [pkt]
    let sr := sendUnreceivedResponsePackets rl s.responsePackets
    (sr.1, if sr.2 then some { s with responseNaksList := rl } else none)
  else if pTypeByte pkt = 1 then
    if receivedSeqNo = 3 then ([], some s)
    else
      let rl := remove s.responseNaksList pkt
      let sr := sendUnreceivedResponsePackets rl s.responsePackets
      (sr.1, if sr.2 then some { s with responseNaksList := rl } else none)
  else if pTypeByte pkt = 0 then
    dataStep bridge s pkt
  else
    let hs := handleHandshakePacket pkt
    match hs.1 with
    | some v => (hs.2, some (if 0 < v then { s with totalNumPackets := v.toNat } else s))
    | none => (hs.2, some s)

/-- Run the session loop over a list of inbound packets, accumulating events;
stops with the events so far when a step panics. -/
def run (bridge : List Nat → List Nat) : Session → List UDPPacket → List Event × Option Session
  | s, [] => ([], some s)
  | s, pkt :: rest =>
    let st := step bridge s pkt
    match st.2 with
    | none => (st.1, none)
    | some s' =>
      let r := run bridge s' rest
      (st.1 ++ r.1, r.2)

/-- Test for the emitter-invocation marker. -/
def isRespondEvent : Event → Bool
  | Event.respond _ => true
  | Event.wire _ => false

/-- Number of response-emitter invocations recorded in an event list. -/
def countRespond (evs : List Event) : Nat := evs.countP isRespondEvent

/-- Number of DATA packets in a packet list. -/
def countData (pkts : List UDPPacket) : Nat :=
  pkts.countP fun p => pTypeByte p = 0

/-! ### Concrete packets and a concrete bridge for counterexamples -/

/-- A concrete SYN packet from 127.0.0.1:80 announcing one DATA packet
(payload "1", i.e. byte 49). -/
def synPkt : UDPPacket :=
  { pType := [2]
    seqNo := [0, 0, 0, 2]
    peerAddr := [127, 0, 0, 1]
    peerPort := [0, 80]
    payload := [49] }

/-- A concrete SYN packet whose payload "abc" (bytes 97 98 99) is not a valid
decimal integer. -/
def synBadPkt : UDPPacket :=
  { pType := [2]
    seqNo := [0, 0, 0, 2]
    peerAddr := [127, 0, 0, 1]
    peerPort := [0, 80]
    payload := [97, 98, 99] }

/-- A concrete DATA packet with seqNo 4 and one payload byte. -/
def dataPkt4 : UDPPacket :=
  { pType := [0]
    seqNo := [0, 0, 0, 4]
    peerAddr := [127, 0, 0, 1]
    peerPort := [0, 80]
    payload := [71] }

/-- A concrete DATA packet with seqNo 5 and one payload byte. -/
def dataPkt5 : UDPPacket :=
  { pType := [0]
    seqNo := [0, 0, 0, 5]
    peerAddr := [127, 0, 0, 1]
    peerPort := [0, 80]
    payload := [72] }

/-- A concrete DATA packet with seqNo 1024 — one past the last slot of the
1024-entry reassembly buffer. -/
def dataPkt1024 : UDPPacket :=
  { pType := [0]
    seqNo := [0, 0, 4, 0]
    peerAddr := [127, 0, 0, 1]
    peerPort := [0, 80]
    payload := [71] }

/-- A trivial concrete HTTP bridge: responds with one byte to any request. -/
def bridge0 : List Nat → List Nat := fun _ => [72]

/-- A concrete NAK packet with seqNo 1 from 127.0.0.1:80. -/
def nakPkt1 : UDPPacket :=
  { pType := [4]
    seqNo := [0, 0, 0, 1]
    peerAddr := [127, 0, 0, 1]
    peerPort := [0, 80]
    payload := [] }

/-! ## Lemmas about the NAK retransmission routine -/

/-- If some pending NAK carries a seqNo of 0 or one exceeding the number of
stored response packets, the retransmission loop panics. -/
theorem sendUnreceived_mem_oob {l rp : List UDPPacket} {q : UDPPacket} (hq : q ∈ l)
    (hoob : be32 q.seqNo = 0 ∨ rp.length < be32 q.seqNo) :
    (sendUnreceivedResponsePackets l rp).2 = false := by
  induction l with
  | nil => cases hq
  | cons a rest ih =>
    rcases List.mem_cons.mp hq with rfl | hmem
    · rcases hoob with h0 | hgt
      · simp only [sendUnreceivedResponsePackets, if_pos h0]
      · have hz : ¬ be32 q.seqNo = 0 := by omega
        have hnone : rp.get? (be32 q.seqNo - 1) = none :=
          List.get?_eq_none.mpr (by omega)
        simp only [sendUnreceivedResponsePackets, if_neg hz, hnone]
    · simp only [sendUnreceivedResponsePackets]
      split
      · rfl
      · split
        · rfl
        · simp [ih hmem]

/-- When every pending NAK is in range, the retransmission loop completes,
and for each pending NAK the bytes of the indexed stored packet are among the
emitted writes. -/
theorem sendUnreceived_in_range {l rp : List UDPPacket}
    (h : ∀ q ∈ l, 1 ≤ be32 q.seqNo ∧ be32 q.seqNo ≤ rp.length) :
    (sendUnreceivedResponsePackets l rp).2 = true
      ∧ ∀ q ∈ l, ∀ mp, rp.get? (be32 q.seqNo - 1) = some mp →
          Event.wire (getBytesFromPacket mp) ∈ (sendUnreceivedResponsePackets l rp).1 := by
  induction l with
  | nil => exact ⟨rfl, by simp⟩
  | cons a rest ih =>
    obtain ⟨h1, h2⟩ := h a (List.mem_cons_self a rest)
    have hz : ¬ be32 a.seqNo = 0 := by omega
    obtain ⟨mp, hmp⟩ : ∃ mp, rp.get? (be32 a.seqNo - 1) = some mp := by
      cases hg : rp.get? (be32 a.seqNo - 1) with
      | none => have := List.get?_eq_none.mp hg; omega
      | some mp => exact ⟨mp, rfl⟩
    obtain ⟨ihc, ihm⟩ := ih fun q hq => h q (List.mem_cons_of_mem a hq)
    constructor
    · simp only [sendUnreceivedResponsePackets, if_neg hz, hmp]
      exact ihc
    · intro q hq mp' hmp'
      simp only [sendUnreceivedResponsePackets, if_neg hz, hmp]
      rcases List.mem_cons.mp hq with rfl | hmem
      · rw [hmp] at hmp'
        cases hmp'
        exact List.mem_cons_self _ _
      · exact List.mem_cons_of_mem _ (ihm q hmem mp' hmp')

/-! ## Claim C10: out-of-range NAK seqNo -/

/-- C10: `sendUnreceivedResponsePackets` indexes the stored response packets
at `seqNo − 1` with no bounds check, so a NAK whose seqNo is 0 or greater
than the number of stored response packets — in particular any NAK arriving
while the stored sequence is still empty — makes the receive step panic
(`none`): the operation is not total. -/
theorem c10_nak_index_oob (bridge : List Nat → List Nat) (s : Session) (pkt : UDPPacket)
    (hty : pTypeByte pkt = 4)
    (hoob : be32 pkt.seqNo = 0 ∨ s.responsePackets.length < be32 pkt.seqNo) :
    (step bridge s pkt).2 = none := by
  have hfail : (sendUnreceivedResponsePackets (s.responseNaksList ++ [pkt])
      s.responsePackets).2 = false :=
    sendUnreceived_mem_oob (List.mem_append_right _ (List.mem_singleton.mpr rfl)) hoob
  simp only [step, hty, hfail]
  norm_num

/-- C10 witness: a NAK with seqNo 1 arriving before any response packet has
been stored panics the session. -/
theorem c10_witness : (step bridge0 (initSession synPkt) nakPkt1).2 = none :=
  c10_nak_index_oob bridge0 (initSession synPkt) nakPkt1 (by decide)
    (Or.inr (by decide))

/-! ## Claim C6: NAK-driven retransmission of the exact bytes -/

/-- C6: once the server has emitted and retained `N` response packets (each
stored entry is `parsePacket` of the transmitted bytes — the link recorded by
`writeResponseToClient`), a NAK with seqNo `k` (1 ≤ k ≤ N) is appended to
the pending NAK list and the step retransmits bytes byte-for-byte identical
to the originally transmitted response packet with that seqNo (provided the
already-pending NAKs are in range, which holds for any session that has not
already panicked). -/
theorem c6_nak_retransmission (bridge : List Nat → List Nat) (s : Session)
    (pkt : UDPPacket) (b : List Nat) (q : UDPPacket) (k : Nat)
    (hty : pTypeByte pkt = 4) (hk : be32 pkt.seqNo = k)
    (hk1 : 1 ≤ k) (hkN : k ≤ s.responsePackets.length)
    (hpend : ∀ p ∈ s.responseNaksList,
      1 ≤ be32 p.seqNo ∧ be32 p.seqNo ≤ s.responsePackets.length)
    (hstored : s.responsePackets.get? (k - 1) = some q)
    (horig : parsePacket b = some q) :
    (step bridge s pkt).2 = some { s with responseNaksList := s.responseNaksList ++ [pkt] }
      ∧ Event.wire b ∈ (step bridge s pkt).1 := by
  have hall : ∀ p ∈ s.responseNaksList ++ [pkt],
      1 ≤ be32 p.seqNo ∧ be32 p.seqNo ≤ s.responsePackets.length := by
    intro p hp
    rcases List.mem_append.mp hp with hmem | hmem
    · exact hpend p hmem
    · rw [List.mem_singleton.mp hmem, hk]
      exact ⟨hk1, hkN⟩
  obtain ⟨hc, hm⟩ := sendUnreceived_in_range hall
  have hginpkt : s.responsePackets.get? (be32 pkt.seqNo - 1) = some q := by
    rw [hk]; exact hstored
  have hmem := hm pkt (List.mem_append_right _ (List.mem_singleton.mpr rfl)) q hginpkt
  rw [getBytes_parsePacket horig] at hmem
  constructor
  · simp only [step, hty, hc]
    norm_num
  · simp only [step, hty, hc]
    norm_num
    exact hmem

/-- A concrete stored response packet and its wire bytes for the C6 witness. -/
def q0 : UDPPacket :=
  { pType := [0]
    seqNo := [0, 0, 0, 1]
    peerAddr := [127, 0, 0, 1]
    peerPort := [0, 80]
    payload := [72, 1] }

/-- The transmitted bytes of `q0`. -/
def b0 : List Nat := getBytesFromPacket q0

/-- A session that has emitted one response packet (`q0`). -/
def s6 : Session := { initSession synPkt with responsePackets := [q0] }

/-- C6 witness: NAK seqNo 1 against the one stored response packet makes the
step retransmit exactly its original bytes. -/
theorem c6_witness :
    (step bridge0 s6 nakPkt1).2 = some { s6 with responseNaksList := s6.responseNaksList ++ [nakPkt1] }
      ∧ Event.wire b0 ∈ (step bridge0 s6 nakPkt1).1 :=
  c6_nak_retransmission bridge0 s6 nakPkt1 b0 q0 1 (by decide) (by decide) (by decide)
    (by decide)
    (by intro p hp; simp only [s6, initSession] at hp; exact absurd hp (List.not_mem_nil p))
    (by decide) (by decide)

/-! ## Claim C2: duplicate DATA packets -/

/-- The wire bytes of the ACK for seqNo 4 addressed to 127.0.0.1:80. -/
def ack4Bytes : List Nat := getBytesFromPacket (MakePacket 1 4 (quadStr 127 0 0 1) 80 [])

/-- C2 counterexample: after a handshake announcing one DATA packet, the peer
sends DATA{seq=4} twice.  The claim demands ACK{seq=4} twice; the code ACKs
only the first copy and silently drops the second (its seqNo is already in
`acks`, so the duplicate is dropped before any ACK is written).  The response
is emitted exactly once. -/
theorem c2_duplicate_cex :
    (run bridge0 (initSession synPkt) [synPkt, dataPkt4, dataPkt4]).1.count
        (Event.wire ack4Bytes) = 1
      ∧ ¬ (run bridge0 (initSession synPkt) [synPkt, dataPkt4, dataPkt4]).1.count
        (Event.wire ack4Bytes) = 2
      ∧ countRespond (run bridge0 (initSession synPkt) [synPkt, dataPkt4, dataPkt4]).1 = 1 := by
  refine ⟨by decide, by decide, by decide⟩

/-- C2 amended: a retransmitted DATA packet whose seqNo has already been
acknowledged is dropped entirely: the step emits no ACK (so each seqNo
receives at most one ACK per session), leaves the whole session state —
including `reassembly[4]` — unchanged, and does not re-emit the response. -/
theorem c2_amended_duplicate_dropped (bridge : List Nat → List Nat) (s : Session)
    (pkt : UDPPacket) (hty : pTypeByte pkt = 0)
    (hdup : inAcks (be32 pkt.seqNo) s.acks = true) :
    step bridge s pkt = ([], some s) := by
  simp only [step, hty]
  norm_num
  simp [dataStep, hdup]

/-- C2 amended witness: in a session that has already acknowledged seqNo 4, a
second DATA{seq=4} is a no-op. -/
theorem c2_amended_witness :
    step bridge0 { initSession synPkt with acks := [0, 0, 0, 0, 0, 4] } dataPkt4
      = ([], some { initSession synPkt with acks := [0, 0, 0, 0, 0, 4] }) :=
  c2_amended_duplicate_dropped bridge0 _ dataPkt4 (by decide) (by decide)

/-! ## Claim C4: corrupt SYN payload -/

/-- C4 counterexample: after a SYN whose payload is not a valid integer,
`totalNumPackets` is indeed left at 0 — but on the very next DATA packet the
completeness check passes vacuously (`checkNotEmpty` of the empty slice
`httpPayload[4:4]` returns true) and the response emitter IS invoked, with an
empty reassembled request, contradicting the claim that the request never
completes and the emitter is never invoked. -/
theorem c4_corrupt_syn_cex :
    countRespond (run bridge0 (initSession synBadPkt) [synBadPkt, dataPkt4]).1 = 1
      ∧ (run bridge0 (initSession synBadPkt) [synBadPkt, dataPkt4]).2.map
          (fun s => s.totalNumPackets) = some 0 := by
  refine ⟨by decide, by decide⟩

/-- Helper: with `totalNumPackets = 0`, the completeness check reaches the
response emitter with the empty reassembled request. -/
theorem completeCheck_total_zero (bridge : List Nat → List Nat) (s : Session)
    (h0 : s.totalNumPackets = 0) (hlen : 4 ≤ s.httpPayload.length) :
    (completeCheck bridge s).1 = Event.respond [] ::
      (sendLoop (getResponsePacketBytes 1 s.hostAddr s.hostPort (bridge [])).1).1 := by
  simp [completeCheck, writeResponseToClient, h0, checkNotEmpty, stringifyRequestPayload, hlen]

/-- Helper: with `totalNumPackets = 0` the empty-request response event is
among the completeness-check events. -/
theorem respond_mem_completeCheck (bridge : List Nat → List Nat) (s : Session)
    (h0 : s.totalNumPackets = 0) (hlen : 4 ≤ s.httpPayload.length) :
    Event.respond [] ∈ (completeCheck bridge s).1 := by
  rw [completeCheck_total_zero bridge s h0 hlen]
  exact List.mem_cons_self _ _

/-- C4 amended: a SYN whose payload is not a valid decimal integer leaves
`totalNumPackets` unchanged at its previous value (so at its initial 0) and
the whole session state intact — the corruption is logged and a SYN-ACK is
still sent.  However the request does not stay incomplete: with
`totalNumPackets = 0` the completeness check passes vacuously, so the next
fresh DATA packet DOES invoke the response emitter, with an empty reassembled
request.  (No teardown ever follows from this in the source: nothing sends
the done signal.) -/
theorem c4_amended_corrupt_syn :
    (∀ (bridge : List Nat → List Nat) (s : Session) (pkt : UDPPacket),
        pTypeByte pkt = 2 → goAtoi pkt.payload = none →
        step bridge s pkt = ([Event.wire (getBytesFromPacket (MakePacket 3 (be32 pkt.seqNo + 1)
          (getAddressFromBytes pkt) (be16 pkt.peerPort) []))], some s))
      ∧ (∀ (bridge : List Nat → List Nat) (s : Session) (pkt : UDPPacket),
          pTypeByte pkt = 0 → s.totalNumPackets = 0 →
          s.httpPayload.length = 1024 → inAcks (be32 pkt.seqNo) s.acks = false →
          be32 pkt.seqNo < 1024 →
          Event.respond [] ∈ (step bridge s pkt).1) := by
  constructor
  · intro bridge s pkt hty hbad
    simp only [step, hty, handleHandshakePacket, hbad]
    norm_num
  · intro bridge s pkt hty h0 hlen hfresh hlt
    simp only [step, hty]
    norm_num
    simp only [dataStep, hfresh]
    norm_num
    rcases Nat.lt_trichotomy (be32 pkt.seqNo) s.expectedSeqNo with hcmp | hcmp | hcmp
    · rw [if_neg (by omega), if_pos hcmp, if_pos (by omega)]
      exact List.mem_cons_of_mem _
        (respond_mem_completeCheck bridge _ h0 (by simp only [List.length_set, hlen]; omega))
    · rw [if_pos hcmp, if_pos (by omega)]
      exact List.mem_cons_of_mem _
        (respond_mem_completeCheck bridge _ h0 (by simp only [List.length_set, hlen]; omega))
    · rw [if_neg (by omega), if_neg (by omega), if_pos (by omega)]
      exact List.mem_cons_of_mem _ (List.mem_append_right _
        (respond_mem_completeCheck bridge _ h0 (by simp only [List.length_set, hlen]; omega)))

/-- C4 amended witness: the corrupt SYN leaves the initial session unchanged
(with its SYN-ACK still sent), and the following DATA packet invokes the
response emitter with an empty request. -/
theorem c4_amended_witness :
    step bridge0 (initSession synBadPkt) synBadPkt
        = ([Event.wire (getBytesFromPacket (MakePacket 3 (be32 synBadPkt.seqNo + 1)
            (getAddressFromBytes synBadPkt) (be16 synBadPkt.peerPort) []))],
           some (initSession synBadPkt))
      ∧ Event.respond [] ∈ (step bridge0 (initSession synBadPkt) dataPkt4).1 :=
  ⟨c4_amended_corrupt_syn.1 bridge0 (initSession synBadPkt) synBadPkt (by decide) (by decide),
   c4_amended_corrupt_syn.2 bridge0 (initSession synBadPkt) dataPkt4 (by decide) (by decide)
     (by decide) (by decide) (by decide)⟩

/-! ## Claim C5: the ahead sub-case -/

/-- Helper: whatever the completeness check does, it never changes
`expectedSeqNo`, `acks`, `naks`, `httpPayload` or `totalNumPackets` — it can
only install `responsePackets` (or panic). -/
theorem completeCheck_preserves (bridge : List Nat → List Nat) {s s' : Session}
    (h : (completeCheck bridge s).2 = some s') :
    s'.expectedSeqNo = s.expectedSeqNo ∧ s'.acks = s.acks ∧ s'.naks = s.naks
      ∧ s'.httpPayload = s.httpPayload ∧ s'.totalNumPackets = s.totalNumPackets := by
  simp only [completeCheck] at h
  split at h
  · split at h
    · simp at h
    · split at h
      · simp only [Option.map_eq_some'] at h
        obtain ⟨pks, hpks, rfl⟩ := h
        simp
      · split at h
        · split at h
          · simp only [Option.map_eq_some'] at h
            obtain ⟨pks, hpks, rfl⟩ := h
            simp
          · simp only [Option.some_inj] at h
            subst h
            exact ⟨rfl, rfl, rfl, rfl, rfl⟩
        · simp at h
  · split at h
    · split at h
      · simp only [Option.map_eq_some'] at h
        obtain ⟨pks, hpks, rfl⟩ := h
        simp
      · simp only [Option.some_inj] at h
        subst h
        exact ⟨rfl, rfl, rfl, rfl, rfl⟩
    · simp at h

/-- A concrete DATA packet with seqNo 6 and one payload byte. -/
def dataPkt6 : UDPPacket :=
  { pType := [0]
    seqNo := [0, 0, 0, 6]
    peerAddr := [127, 0, 0, 1]
    peerPort := [0, 80]
    payload := [73] }

/-- C5 counterexample: a DATA packet with seqNo 1024 (strictly greater than
`expectedSeqNo = 4`) makes the receive step write the ACK and then panic on
the out-of-range store `httpPayload[1024]`: no payload is stored, no seqNo is
added to `naked`, no NAK is emitted and `expectedSeqNo` is never set to
1025 — contradicting the claim, which asserts all of these for every
`r > expectedSeqNo`. -/
theorem c5_ahead_oob_cex :
    step bridge0 (initSession dataPkt1024) dataPkt1024
      = ([Event.wire (getBytesFromPacket (MakePacket 1 1024 (quadStr 127 0 0 1) 80 []))],
         none) := by
  decide

/-- C5 amended: for a DATA packet with `expectedSeqNo < r` whose seqNo has
not been acknowledged (which the `acks` invariant guarantees whenever
`r > expectedSeqNo`) and which lies inside the 1024-slot reassembly buffer,
the step emits ACK(r) followed by NAK(k) for every k in `[expectedSeqNo, r)`
in order, and — whenever the step completes without a panic — the post-state
has `reassembly[r]` holding the payload, `naked` extended by exactly those k,
and `expectedSeqNo = r + 1`. -/
theorem c5_amended_ahead_case (bridge : List Nat → List Nat) (s : Session) (pkt : UDPPacket)
    (hty : pTypeByte pkt = 0)
    (hinv : ∀ a ∈ s.acks, a < s.expectedSeqNo)
    (hgt : s.expectedSeqNo < be32 pkt.seqNo)
    (hlen : s.httpPayload.length = 1024)
    (hlt : be32 pkt.seqNo < 1024) :
    (step bridge s pkt).1.take (1 + (be32 pkt.seqNo - s.expectedSeqNo))
        = Event.wire (getBytesFromPacket (MakePacket 1 (be32 pkt.seqNo) s.hostAddr
            (be16 pkt.peerPort) []))
          :: (List.range' s.expectedSeqNo (be32 pkt.seqNo - s.expectedSeqNo)).map (fun k =>
            Event.wire (getBytesFromPacket (MakePacket 4 k s.hostAddr (be16 pkt.peerPort) [])))
      ∧ ∀ s', (step bridge s pkt).2 = some s' →
          s'.expectedSeqNo = be32 pkt.seqNo + 1
            ∧ s'.naks = s.naks ++ List.range' s.expectedSeqNo (be32 pkt.seqNo - s.expectedSeqNo)
            ∧ s'.httpPayload = s.httpPayload.set (be32 pkt.seqNo) pkt.payload
            ∧ s'.acks = s.acks ++ [be32 pkt.seqNo] := by
  have hfresh : inAcks (be32 pkt.seqNo) s.acks = false := by
    simp only [inAcks, List.any_eq_false, decide_eq_true_eq]
    intro a ha
    have := hinv a ha
    omega
  simp only [step, hty]
  norm_num
  simp only [dataStep, hfresh]
  norm_num
  rw [if_neg (by omega : ¬ be32 pkt.seqNo = s.expectedSeqNo),
      if_neg (by omega : ¬ be32 pkt.seqNo < s.expectedSeqNo),
      if_pos (by omega : be32 pkt.seqNo < s.httpPayload.length)]
  constructor
  · rw [Nat.add_comm 1 (be32 pkt.seqNo - s.expectedSeqNo), List.take_succ_cons]
    congr 1
    exact List.take_left' (by simp)
  · intro s' hs'
    obtain ⟨he, ha, hn, hp, _⟩ := completeCheck_preserves bridge hs'
    refine ⟨?_, ?_, ?_, ?_⟩
    · rw [he]
      exact Nat.mod_eq_of_lt (by omega)
    · rw [hn]
    · rw [hp]
    · rw [ha]

/-- C5 amended witness: with a fresh session (handshake packet only), a DATA
packet with seqNo 6 produces ACK(6) followed by NAK(4) and NAK(5). -/
theorem c5_amended_witness :
    (step bridge0 (initSession synPkt) dataPkt6).1.take
        (1 + (be32 dataPkt6.seqNo - (initSession synPkt).expectedSeqNo))
      = Event.wire (getBytesFromPacket (MakePacket 1 (be32 dataPkt6.seqNo)
          (initSession synPkt).hostAddr (be16 dataPkt6.peerPort) []))
        :: (List.range' (initSession synPkt).expectedSeqNo
            (be32 dataPkt6.seqNo - (initSession synPkt).expectedSeqNo)).map (fun k =>
          Event.wire (getBytesFromPacket (MakePacket 4 k (initSession synPkt).hostAddr
            (be16 dataPkt6.peerPort) []))) :=
  (c5_amended_ahead_case bridge0 (initSession synPkt) dataPkt6 (by decide) (by decide)
    (by decide) (by decide) (by decide)).1

/-! ## Claim C8: how often the response emitter runs -/

theorem countRespond_cons_wire (b : List Nat) (evs : List Event) :
    countRespond (Event.wire b :: evs) = countRespond evs := by
  simp [countRespond, List.countP_cons, isRespondEvent]

theorem countRespond_cons_respond (req : List Nat) (evs : List Event) :
    countRespond (Event.respond req :: evs) = countRespond evs + 1 := by
  simp [countRespond, List.countP_cons, isRespondEvent]

theorem countRespond_append (l1 l2 : List Event) :
    countRespond (l1 ++ l2) = countRespond l1 + countRespond l2 :=
  List.countP_append _ _ _

theorem countRespond_wire_map {α : Type} (f : α → List Nat) (l : List α) :
    countRespond (l.map fun x => Event.wire (f x)) = 0 := by
  induction l with
  | nil => rfl
  | cons x xs ih => simpa [countRespond_cons_wire] using ih

theorem countRespond_sendUnreceived (l rp : List UDPPacket) :
    countRespond (sendUnreceivedResponsePackets l rp).1 = 0 := by
  induction l with
  | nil => rfl
  | cons a rest ih =>
    simp only [sendUnreceivedResponsePackets]
    split
    · rfl
    · split
      · rfl
      · simpa [countRespond_cons_wire] using ih

theorem countRespond_sendLoop (bs : List (List Nat)) :
    countRespond (sendLoop bs).1 = 0 := by
  induction bs with
  | nil => rfl
  | cons b rest ih =>
    simp only [sendLoop]
    split
    · rfl
    · simpa [countRespond_cons_wire] using ih

theorem countRespond_writeResponse (bridge : List Nat → List Nat)
    (hp : List (List Nat)) (total : Nat) (addr : List Nat) (port : Nat) :
    countRespond (writeResponseToClient bridge hp total addr port).1 ≤ 1 := by
  simp only [writeResponseToClient]
  split
  · have h := countRespond_sendLoop (getResponsePacketBytes 1 addr port
      (bridge (stringifyRequestPayload hp total))).1
    refine le_trans (le_of_eq (countRespond_cons_respond _ _)) ?_
    omega
  · simp [countRespond]

theorem countRespond_completeCheck (bridge : List Nat → List Nat) (s : Session) :
    countRespond (completeCheck bridge s).1 ≤ 1 := by
  simp only [completeCheck]
  split
  · split
    · simp [countRespond]
    · split
      · exact countRespond_writeResponse bridge _ _ _ _
      · split
        · split
          · exact countRespond_writeResponse bridge _ _ _ _
          · simp [countRespond]
        · simp [countRespond]
  · split
    · split
      · exact countRespond_writeResponse bridge _ _ _ _
      · simp [countRespond]
    · simp [countRespond]

theorem countRespond_handshake (pkt : UDPPacket) :
    countRespond (handleHandshakePacket pkt).2 = 0 := by
  simp only [handleHandshakePacket]
  split
  · exact countRespond_cons_wire _ []
  · rfl

/-- At most one emitter invocation per step, and only for a DATA packet. -/
theorem countRespond_step (bridge : List Nat → List Nat) (s : Session) (pkt : UDPPacket) :
    countRespond (step bridge s pkt).1 ≤ countData [pkt] := by
  by_cases h4 : pTypeByte pkt = 4
  · have h : countRespond (step bridge s pkt).1 = 0 := by
      simp only [step, h4]
      norm_num
      exact countRespond_sendUnreceived _ _
    rw [h]
    exact Nat.zero_le _
  · by_cases h1 : pTypeByte pkt = 1
    · have h : countRespond (step bridge s pkt).1 = 0 := by
        simp only [step, h1]
        norm_num
        split
        · rfl
        · exact countRespond_sendUnreceived _ _
      rw [h]
      exact Nat.zero_le _
    · by_cases h0 : pTypeByte pkt = 0
      · have hdata : countData [pkt] = 1 := by
          simp [countData, List.countP_cons, h0]
        rw [hdata]
        simp only [step, h0]
        norm_num
        simp only [dataStep]
        split
        · simp [countRespond]
        · split
          · split
            · exact le_trans (le_of_eq (countRespond_cons_wire _ _))
                (countRespond_completeCheck bridge _)
            · simp [countRespond, List.countP_cons, isRespondEvent]
          · split
            · split
              · exact le_trans (le_of_eq (countRespond_cons_wire _ _))
                  (countRespond_completeCheck bridge _)
              · simp [countRespond, List.countP_cons, isRespondEvent]
            · split
              · refine le_trans (le_of_eq (countRespond_cons_wire _ _)) ?_
                rw [countRespond_append, countRespond_wire_map]
                simpa using countRespond_completeCheck bridge _
              · simp [countRespond, List.countP_cons, isRespondEvent]
      · simp only [step, if_neg h4, if_neg h1, if_neg h0]
        split
        · exact le_trans (le_of_eq (countRespond_handshake pkt)) (Nat.zero_le _)
        · exact le_trans (le_of_eq (countRespond_handshake pkt)) (Nat.zero_le _)

/-- C8 counterexample: with a handshake announcing one DATA packet, the trace
SYN, DATA{4}, DATA{5} makes the completeness check pass after each of the two
DATA packets, so `writeResponseToClient` — and with it the HTTP handler —
runs twice in one session, contradicting the claim that the emitter is never
re-invoked once the response has been emitted. -/
theorem c8_reinvoke_cex :
    countRespond (run bridge0 (initSession synPkt) [synPkt, dataPkt4, dataPkt5]).1 = 2
      ∧ ¬ countRespond (run bridge0 (initSession synPkt) [synPkt, dataPkt4, dataPkt5]).1 ≤ 1 := by
  refine ⟨by decide, by decide⟩

/-- C8 amended: the response emitter is re-invoked on every fresh DATA packet
whose arrival satisfies the completeness check, so the HTTP handler may run
more than once per session; what does hold is that each step invokes the
emitter at most once and only for a DATA packet, so over any trace the number
of handler invocations is at most the number of DATA packets received (each
invocation transmitting each constructed packet once). -/
theorem c8_amended_respond_bound (bridge : List Nat → List Nat) (s : Session)
    (pkts : List UDPPacket) :
    countRespond (run bridge s pkts).1 ≤ countData pkts := by
  induction pkts generalizing s with
  | nil => simp [run, countRespond, countData]
  | cons p rest ih =>
    have hsingle : countData [p] + countData rest = countData (p :: rest) := by
      simp only [countData, List.countP_cons, List.countP_nil]
      split <;> omega
    simp only [run]
    cases h : (step bridge s p).2 with
    | none =>
      simp only []
      have h1 := countRespond_step bridge s p
      omega
    | some s' =>
      simp only []
      rw [countRespond_append]
      have h1 := countRespond_step bridge s p
      have h2 := ih s'
      omega

/-! ## Claim C9: monotonicity of expectedSeqNo -/

/-- C9: for every session whose reassembly buffer has its build-time length
1024 (true of every session: it is `make([]string, 1024)` at creation and
never resized), every receive-loop transition that completes without a panic
leaves `expectedSeqNo` unchanged or increases it — in particular the uint32
increment can never wrap, because a DATA seqNo large enough to wrap it is
stopped by the out-of-range store panic first. -/
theorem c9_expected_monotone (bridge : List Nat → List Nat) (s : Session) (pkt : UDPPacket)
    (s' : Session) (hlen : s.httpPayload.length = 1024)
    (hstep : (step bridge s pkt).2 = some s') :
    s.expectedSeqNo ≤ s'.expectedSeqNo := by
  by_cases h4 : pTypeByte pkt = 4
  · simp only [step, h4] at hstep
    norm_num at hstep
    obtain ⟨-, rfl⟩ := hstep
    exact Nat.le_refl _
  · by_cases h1 : pTypeByte pkt = 1
    · simp only [step, h1] at hstep
      norm_num at hstep
      split at hstep
      · obtain rfl := Option.some_inj.mp hstep
        exact Nat.le_refl _
      · norm_num at hstep
        obtain ⟨-, rfl⟩ := hstep
        exact Nat.le_refl _
    · by_cases h0 : pTypeByte pkt = 0
      · simp only [step, h0] at hstep
        norm_num at hstep
        simp only [dataStep] at hstep
        split at hstep
        · obtain rfl := Option.some_inj.mp hstep
          exact Nat.le_refl _
        · split at hstep
          · rename_i heq
            split at hstep
            · rename_i hlt
              obtain ⟨he, -, -, -, -⟩ := completeCheck_preserves bridge hstep
              rw [he]
              show s.expectedSeqNo ≤ (s.expectedSeqNo + 1) % 2 ^ 32
              rw [Nat.mod_eq_of_lt (by omega)]
              omega
            · simp at hstep
          · rename_i hne
            split at hstep
            · split at hstep
              · obtain ⟨he, -, -, -, -⟩ := completeCheck_preserves bridge hstep
                rw [he]
              · simp at hstep
            · rename_i hge
              split at hstep
              · rename_i hlt
                obtain ⟨he, -, -, -, -⟩ := completeCheck_preserves bridge hstep
                rw [he]
                show s.expectedSeqNo ≤ (be32 pkt.seqNo + 1) % 2 ^ 32
                rw [Nat.mod_eq_of_lt (by omega)]
                omega
              · simp at hstep
      · simp only [step, if_neg h4, if_neg h1, if_neg h0] at hstep
        split at hstep
        · obtain rfl := Option.some_inj.mp hstep
          split
          · exact Nat.le_refl _
          · exact Nat.le_refl _
        · obtain rfl := Option.some_inj.mp hstep
          exact Nat.le_refl _

/-- The hypotheses used by the C5 and C9 theorems are invariants: they hold
of a freshly created session. -/
theorem initSession_invariants (pkt : UDPPacket) :
    (initSession pkt).httpPayload.length = 1024
      ∧ ∀ a ∈ (initSession pkt).acks, a < (initSession pkt).expectedSeqNo := by
  constructor
  · simp [initSession]
  · intro a ha
    simp [initSession] at ha
    simp [initSession, ha]

/-- The hypotheses used by the C5 and C9 theorems are invariants: every
completed step preserves the 1024-slot reassembly buffer and keeps every
acknowledged seqNo strictly below `expectedSeqNo`. -/
theorem step_preserves_invariants (bridge : List Nat → List Nat) (s : Session)
    (pkt : UDPPacket) (s' : Session) (hstep : (step bridge s pkt).2 = some s')
    (hlen : s.httpPayload.length = 1024)
    (hinv : ∀ a ∈ s.acks, a < s.expectedSeqNo) :
    s'.httpPayload.length = 1024 ∧ ∀ a ∈ s'.acks, a < s'.expectedSeqNo := by
  by_cases h4 : pTypeByte pkt = 4
  · simp only [step, h4] at hstep
    norm_num at hstep
    obtain ⟨-, rfl⟩ := hstep
    exact ⟨hlen, hinv⟩
  · by_cases h1 : pTypeByte pkt = 1
    · simp only [step, h1] at hstep
      norm_num at hstep
      split at hstep
      · obtain rfl := Option.some_inj.mp hstep
        exact ⟨hlen, hinv⟩
      · norm_num at hstep
        obtain ⟨-, rfl⟩ := hstep
        exact ⟨hlen, hinv⟩
    · by_cases h0 : pTypeByte pkt = 0
      · simp only [step, h0] at hstep
        norm_num at hstep
        simp only [dataStep] at hstep
        split at hstep
        · obtain rfl := Option.some_inj.mp hstep
          exact ⟨hlen, hinv⟩
        · split at hstep
          · rename_i heq
            split at hstep
            · rename_i hlt
              obtain ⟨he, ha, -, hp, -⟩ := completeCheck_preserves bridge hstep
              constructor
              · rw [hp]
                show (s.httpPayload.set (be32 pkt.seqNo) pkt.payload).length = 1024
                rw [List.length_set]
                exact hlen
              · intro a ha2
                rw [ha] at ha2
                rw [he]
                show a < (s.expectedSeqNo + 1) % 2 ^ 32
                rw [Nat.mod_eq_of_lt (by omega)]
                have ha3 : a ∈ s.acks ++ [be32 pkt.seqNo] := ha2
                rcases List.mem_append.mp ha3 with hm | hm
                · have := hinv a hm
                  omega
                · have := List.mem_singleton.mp hm
                  omega
            · simp at hstep
          · rename_i hne
            split at hstep
            · rename_i hstale
              split at hstep
              · rename_i hlt
                obtain ⟨he, ha, -, hp, -⟩ := completeCheck_preserves bridge hstep
                constructor
                · rw [hp]
                  show (s.httpPayload.set (be32 pkt.seqNo) pkt.payload).length = 1024
                  rw [List.length_set]
                  exact hlen
                · intro a ha2
                  rw [ha] at ha2
                  rw [he]
                  show a < s.expectedSeqNo
                  have ha3 : a ∈ s.acks ++ [be32 pkt.seqNo] := ha2
                  rcases List.mem_append.mp ha3 with hm | hm
                  · exact hinv a hm
                  · have := List.mem_singleton.mp hm
                    omega
              · simp at hstep
            · rename_i hge
              split at hstep
              · rename_i hlt
                obtain ⟨he, ha, -, hp, -⟩ := completeCheck_preserves bridge hstep
                constructor
                · rw [hp]
                  show (s.httpPayload.set (be32 pkt.seqNo) pkt.payload).length = 1024
                  rw [List.length_set]
                  exact hlen
                · intro a ha2
                  rw [ha] at ha2
                  rw [he]
                  show a < (be32 pkt.seqNo + 1) % 2 ^ 32
                  rw [Nat.mod_eq_of_lt (by omega)]
                  have ha3 : a ∈ s.acks ++ [be32 pkt.seqNo] := ha2
                  rcases List.mem_append.mp ha3 with hm | hm
                  · have := hinv a hm
                    omega
                  · have := List.mem_singleton.mp hm
                    omega
              · simp at hstep
      · simp only [step, if_neg h4, if_neg h1, if_neg h0] at hstep
        split at hstep
        · obtain rfl := Option.some_inj.mp hstep
          split
          · exact ⟨hlen, hinv⟩
          · exact ⟨hlen, hinv⟩
        · obtain rfl := Option.some_inj.mp hstep
          exact ⟨hlen, hinv⟩

/-- C9 witness: a concrete completed transition (DATA seqNo 4 on a fresh
session) does not decrease `expectedSeqNo`. -/
theorem c9_witness :
    (initSession synPkt).expectedSeqNo ≤
      ((step bridge0 (initSession synPkt) dataPkt4).2.getD (initSession synPkt)).expectedSeqNo := by
  refine c9_expected_monotone bridge0 (initSession synPkt) dataPkt4 _ (by decide) ?_
  decide

end Httpc
